import Mathlib

/-!
Verification of BAMalyzer (src/app.py): a shallow embedding of the
application's parsing and presentation logic, with theorems checking the
specification's claims against it.

The application shells out to `samtools`, parses its two text reports
(flagstat summary, idxstats per-reference table) and renders views.
We embed:
  * Python string/int primitives used by the code (`str.split`,
    `str.strip`, `str.lower`, `str.splitlines`, `int(...)`, the `in`
    substring test) as structurally recursive functions on `List Char`;
  * the Statistics-tab metrics loop (app.py lines 37-51);
  * the Chromosomes-tab parsing loop and DataFrame operations
    (app.py lines 59-81), including pandas semantics of an empty frame
    and of `nlargest` / `sort_values`;
  * the Flagstats-pie loop and label table (app.py lines 91-131);
  * the subprocess pipeline (app.py lines 22-30).
-/

/-- Characters Python's `str.strip()` and `str.splitlines()` treat as
whitespace (the ASCII ones; `samtools` output contains no others). -/
def isPySpace (c : Char) : Bool :=
  c = ' ' || c = '\t' || c = '\n' || c = '\r' || c = '\x0b' || c = '\x0c'

/-- Python `str.strip()`: drop leading and trailing whitespace. -/
def pyStrip (s : String) : String :=
  ⟨((s.data.dropWhile isPySpace).reverse.dropWhile isPySpace).reverse⟩

/-- Core of Python `str.split(sep)` for a one-character separator: no
collapsing, `[]` input yields `[[]]` (Python: `''.split(c) == ['']`). -/
def splitOnChar (sep : Char) : List Char → List (List Char)
  | [] => [[]]
  | c :: rest =>
    match splitOnChar sep rest with
    | [] => [[]]
    | h :: t => if c = sep then [] :: h :: t else (c :: h) :: t

/-- Python `s.split(sep)` for a one-character separator string (the only
form app.py uses: `'+'`, `'('`, `'\t'`). -/
def pySplit (s : String) (sep : Char) : List String :=
  (splitOnChar sep s.data).map (fun cs => ⟨cs⟩)

/-- Python `str.splitlines()` restricted to newline-separated text (the
only form `samtools` emits): Python returns `[]` on the empty string and
drops the element after a trailing final newline; the parsers' blank-line
guards make the trailing-`""` difference immaterial, but we model the empty
string faithfully. -/
def pySplitlines (s : String) : List String :=
  if s.data.isEmpty then [] else pySplit s '\n'

/-- Python `str.lower()` (ASCII case mapping suffices here). -/
def pyLower (s : String) : String :=
  ⟨s.data.map Char.toLower⟩

/-- Validity of the digit tail of a Python integer literal: digits with
single underscores allowed only between digits. -/
def udigitsRest : List Char → Bool
  | [] => true
  | ['_'] => false
  | '_' :: d :: r => d.isDigit && udigitsRest (d :: r)
  | c :: r => c.isDigit && udigitsRest r

/-- Validity of a full (unsigned) Python digit string: nonempty, starts
with a digit, underscores only between digits. -/
def udigitsValid : List Char → Bool
  | [] => false
  | c :: r => c.isDigit && udigitsRest r

/-- Numeric value of a digit string, ignoring underscores. -/
def digitsVal (cs : List Char) : Nat :=
  cs.foldl (fun a c => if c = '_' then a else a * 10 + (c.toNat - 48)) 0

/-- Python `int(s)`: optional surrounding whitespace, optional sign,
decimal digits with underscore separators. Returns `none` where Python
raises `ValueError` (the spec's `MalformedReportError`). -/
def pyInt (s : String) : Option Int :=
  match (pyStrip s).data with
  | '+' :: rest => if udigitsValid rest then some (digitsVal rest : Int) else none
  | '-' :: rest => if udigitsValid rest then some (-(digitsVal rest : Int)) else none
  | cs => if udigitsValid cs then some (digitsVal cs : Int) else none

/-- Python `pat in s` substring test on strings. -/
def pyIn (pat s : String) : Prop :=
  pat.data <:+: s.data

instance (pat s : String) : Decidable (pyIn pat s) :=
  List.decidableInfix pat.data s.data

/-- Substring containment is transitive (used to analyse the first-match
label loop). -/
theorem pyIn_trans {a b c : String} (h1 : pyIn a b) (h2 : pyIn b c) :
    pyIn a c :=
  List.IsInfix.trans h1 h2

/-- The spec's `MalformedReportError`: in the code this is the `ValueError`
raised by `int(...)`, carrying the offending literal. -/
abbrev MalformedReportError := String

/-- The `ValueError` message Python's `int` raises on a bad literal. -/
def intValueError (lit : String) : MalformedReportError :=
  "invalid literal for int() with base 10: " ++ lit

/-!  Statistics tab (app.py lines 37-51): the metrics loop keeps the count
as a raw string (no `int` parse) and formats each metric for display. -/

/-- The Statistics-tab loop over the report lines (app.py 38-44): skip
blank lines, split on every `+`, keep only lines with exactly two parts,
format the metric as `**desc**: `count``. -/
def metricsOfLines : List String → List String
  | [] => []
  | line :: rest =>
    if pyStrip line = "" then metricsOfLines rest
    else
      let parts := pySplit line '+'
      if parts.length = 2 then
        let count := pyStrip (parts.getD 0 "")
        let desc := pyStrip ((pySplit (parts.getD 1 "") '(').getD 0 "")
        ("**" ++ desc ++ "**: `" ++ count ++ "`") :: metricsOfLines rest
      else metricsOfLines rest

/-- The Statistics tab's metric list built from the flagstat text. -/
def metricsList (flagstatText : String) : List String :=
  metricsOfLines (pySplitlines flagstatText)

/-- Two-column display split (app.py 46-51): `half = len(metrics) // 2`,
first half in column 1, rest in column 2. -/
def statisticsColumns (flagstatText : String) : List String × List String :=
  let metrics := metricsList flagstatText
  let half := metrics.length / 2
  (metrics.take half, metrics.drop half)

/-!  Flagstats-pie parsing loop (app.py 91-98): same line shape as the
Statistics tab, but the count is parsed with `int` (which can raise) and
the description is lowercased; results go into a dict keyed by
description. -/

/-- Python dict assignment `d[k] = v` on a dict represented as an ordered
association list: overwrite in place if the key exists, else append. -/
def dictInsert (m : List (String × Int)) (k : String) (v : Int) :
    List (String × Int) :=
  if m.any (fun p => p.1 = k) then
    m.map (fun p => if p.1 = k then (k, v) else p)
  else m ++ [(k, v)]

/-- The flagstat_data loop (app.py 92-98), line by line: blank lines and
lines not splitting into exactly two parts around `+` are skipped;
otherwise `int(parts[0].strip())` is taken (a parse failure raises,
aborting the loop) and the description is
`parts[1].split('(')[0].strip().lower()`. -/
def flagstatLoop (acc : List (String × Int)) :
    List String → Except MalformedReportError (List (String × Int))
  | [] => .ok acc
  | line :: rest =>
    if pyStrip line = "" then flagstatLoop acc rest
    else
      let parts := pySplit line '+'
      if parts.length = 2 then
        match pyInt (pyStrip (parts.getD 0 "")) with
        | none => .error (intValueError (pyStrip (parts.getD 0 "")))
        | some count =>
          let desc := pyLower (pyStrip ((pySplit (parts.getD 1 "") '(').getD 0 ""))
          flagstatLoop (dictInsert acc desc count) rest
      else flagstatLoop acc rest

/-- The flagstat_data mapping built from the whole flagstat text. -/
def flagstatData (flagstatText : String) :
    Except MalformedReportError (List (String × Int)) :=
  flagstatLoop [] (pySplitlines flagstatText)

/-- The entries of `flagstatData`, defaulting to `[]` on error (used to
state concrete facts about parses without an `Except` equality). -/
def flagstatEntries (flagstatText : String) : List (String × Int) :=
  (flagstatData flagstatText).toOption.getD []


/-!  Chromosomes tab (app.py 59-81): the idxstats parsing loop, the pandas
DataFrame and Coverage column, and the two derived views. -/

/-- One parsed per-reference row (one element of `chr_data`). -/
structure ChrRow where
  Chromosome : String
  Length : Int
  Mapped : Int
  Unmapped : Int
deriving DecidableEq, Repr

/-- The chr_data loop (app.py 60-69), line by line: blank lines are
skipped; lines with fewer than 3 tab-separated fields are skipped; the
three numeric fields go through `int` in source order (a failure raises,
aborting the loop); `Unmapped` defaults to 0 when the fourth field is
absent. Rows are appended in report order. -/
def chrLoop (acc : List ChrRow) :
    List String → Except MalformedReportError (List ChrRow)
  | [] => .ok acc
  | line :: rest =>
    if pyStrip line = "" then chrLoop acc rest
    else
      let parts := pySplit line '\t'
      if 3 ≤ parts.length then
        match pyInt (parts.getD 1 "") with
        | none => .error (intValueError (parts.getD 1 ""))
        | some len =>
          match pyInt (parts.getD 2 "") with
          | none => .error (intValueError (parts.getD 2 ""))
          | some mapped =>
            if 3 < parts.length then
              match pyInt (parts.getD 3 "") with
              | none => .error (intValueError (parts.getD 3 ""))
              | some unm =>
                chrLoop (acc ++ [⟨parts.getD 0 "", len, mapped, unm⟩]) rest
            else chrLoop (acc ++ [⟨parts.getD 0 "", len, mapped, 0⟩]) rest
      else chrLoop acc rest

/-- The full per-reference table parsed from the idxstats text. -/
def chrData (idxstatsText : String) :
    Except MalformedReportError (List ChrRow) :=
  chrLoop [] (pySplitlines idxstatsText)

/-- The derived Coverage value of one row (app.py 71,
`df['Mapped'] / df['Length']`), as an exact rational; Lean's `x / 0 = 0`
convention stands in for the `inf`/`NaN` sentinel pandas produces on a
zero length — in both cases no exception is raised. -/
def coverageOf (r : ChrRow) : ℚ :=
  (r.Mapped : ℚ) / (r.Length : ℚ)

/-- Descending order on the `Mapped` column. -/
def mappedGE (a b : ChrRow) : Prop :=
  b.Mapped ≤ a.Mapped

instance : DecidableRel mappedGE :=
  fun a b => Int.decLe b.Mapped a.Mapped

instance : IsTotal ChrRow mappedGE :=
  ⟨fun a b => le_total b.Mapped a.Mapped⟩

instance : IsTrans ChrRow mappedGE :=
  ⟨fun _ _ _ hab hbc => le_trans hbc hab⟩

/-- `df.sort_values('Mapped', ascending=False)` (app.py 81): the rows in
descending `Mapped` order; a pure transformation of the row list. -/
def sortByMappedDesc (rows : List ChrRow) : List ChrRow :=
  List.insertionSort mappedGE rows

/-- `df.nlargest(n, 'Mapped')` (app.py 72): the first `n` rows in
descending `Mapped` order (pandas `keep='first'` resolves ties by original
position, as stable sorting does). -/
def nlargestByMapped (n : Nat) (rows : List ChrRow) : List ChrRow :=
  (sortByMappedDesc rows).take n

/-- The rendered content of the Chromosomes tab. -/
structure ChrView where
  table : List (ChrRow × ℚ)
  top5 : List ChrRow
  allSorted : List ChrRow
deriving DecidableEq, Repr

/-- The Chromosomes tab (app.py 70-81). `pd.DataFrame(chr_data)` on an
empty record list yields a frame with no columns, so the column lookup
`df['Mapped']` inside `df['Coverage'] = df['Mapped'] / df['Length']`
raises `KeyError: 'Mapped'`; on a nonempty list every step is total. -/
def chromosomesTab (rows : List ChrRow) : Except String ChrView :=
  if rows.isEmpty then .error "KeyError: 'Mapped'"
  else
    .ok ⟨rows.map (fun r => (r, coverageOf r)),
         nlargestByMapped 5 rows,
         sortByMappedDesc rows⟩

/-!  External Stats Runner (app.py 22-30). -/

/-- Outcome of one external process invocation (exit status and the text it
wrote to its two output streams). -/
structure ProcResult where
  exitCode : Int
  stdout : String
  stderr : String
deriving DecidableEq, Repr

/-- The spec's `ToolExecutionError`: in the code this is the
`subprocess.CalledProcessError` raised by `check=True`, which carries the
command and exit status, and the captured output streams when (and only
when) they were captured. -/
structure ToolExecutionError where
  cmd : List String
  returncode : Int
  capturedStdout : Option String
  capturedStderr : Option String
deriving DecidableEq, Repr

/-- The subprocess pipeline (app.py 22-30) as a function of the three
process outcomes. `samtools index` is run with `check=True` but without
`capture_output`, so a nonzero exit raises a `CalledProcessError` whose
`output`/`stderr` attributes are `None` (the tool's diagnostics went to the
console, not into the exception), and neither report command runs. The two
report commands are run with `capture_output=True` and no `check`, so their
stdout is returned regardless of exit status. -/
def runPipeline (bamPath : String) (index flagstat idxstats : ProcResult) :
    Except ToolExecutionError (String × String) :=
  if index.exitCode ≠ 0 then
    .error ⟨["samtools", "index", bamPath], index.exitCode, none, none⟩
  else
    .ok (flagstat.stdout, idxstats.stdout)

/-!  Flagstats pie chart (app.py 100-131): the fixed label table, the
first-match category assignment, and the empty-state fallback. -/

/-- The labels_map dict (app.py 100-114), in insertion order. -/
def labelsMap : List (String × String) :=
  [("in total", "Total Reads"),
   ("secondary", "Secondary Alignments"),
   ("supplementary", "Supplementary Alignments"),
   ("duplicates", "Duplicates"),
   ("mapped", "Mapped Reads"),
   ("paired in sequencing", "Paired Reads"),
   ("read1", "Read 1"),
   ("read2", "Read 2"),
   ("properly paired", "Properly Paired"),
   ("with itself and mate mapped", "Both Mates Mapped"),
   ("singletons", "Singletons"),
   ("with mate mapped to a different chr", "Mate Different Chr"),
   ("with mate mapped to a different chr (mapq>=5)", "Mate Diff Chr (MQ≥5)")]

/-- The inner first-match loop (app.py 118-121): scan the label table in
order and stop at the first pattern that is a substring of the key. -/
def firstLabel : List (String × String) → String → Option String
  | [], _ => none
  | (pat, lab) :: rest, k => if pyIn pat k then some lab else firstLabel rest k

/-- The pie_data loop (app.py 116-121): each flagstat_data entry whose key
contains some label pattern contributes `(category, count)`; entries
matching no pattern are dropped. -/
def pieData (entries : List (String × Int)) : List (String × Int) :=
  entries.filterMap
    (fun kv => (firstLabel labelsMap kv.1).map (fun lab => (lab, kv.2)))

/-- The rendered content of the Flagstats-pie subtab. -/
inductive PieView where
  | chart : List (String × Int) → PieView
  | warning : PieView
deriving DecidableEq, Repr

/-- The pie subtab (app.py 123-131): a chart when pie_data is nonempty,
otherwise the "Could not generate pie chart." warning. -/
def pieView (entries : List (String × Int)) : PieView :=
  if (pieData entries).isEmpty then .warning else .chart (pieData entries)


/-- Whether an `Except` computation succeeded (i.e. raised nothing). -/
def exceptOk {ε α : Type} : Except ε α → Bool
  | .ok _ => true
  | .error _ => false

/-!  Claim theorems. -/

/-- C1, counterexample: the spec's own example line
`"1000 + 0 in total (QC-passed reads + QC-failed reads)"` contains a second
`+` inside the parenthetical, so `line.split('+')` produces three parts and
the line is skipped: the parse yields the empty mapping and in particular no
entry for `"in total"`. -/
theorem c1_desc_to_count_counterexample :
    flagstatData "1000 + 0 in total (QC-passed reads + QC-failed reads)" = .ok []
    ∧ ("in total", (1000 : Int)) ∉
        flagstatEntries "1000 + 0 in total (QC-passed reads + QC-failed reads)" :=
  ⟨rfl, by decide⟩

/-- The split of a list is never the empty list of parts. -/
theorem splitOnChar_ne_nil (sep : Char) (cs : List Char) :
    splitOnChar sep cs ≠ [] := by
  cases cs with
  | nil => simp [splitOnChar]
  | cons c rest =>
    simp only [splitOnChar]
    cases h : splitOnChar sep rest with
    | nil => simp
    | cons hd tl =>
      by_cases hc : c = sep <;> simp [hc]

/-- Splitting on a character that does not occur leaves the list whole. -/
theorem splitOnChar_of_not_mem (sep : Char) (cs : List Char) (h : sep ∉ cs) :
    splitOnChar sep cs = [cs] := by
  induction cs with
  | nil => rfl
  | cons c rest ih =>
    have hc : ¬(c = sep) := fun e => h (e ▸ List.mem_cons_self c rest)
    have hr : sep ∉ rest := fun m => h (List.mem_cons_of_mem _ m)
    simp [splitOnChar, ih hr, hc]

/-- Splitting at the first separator occurrence: a separator-free part
followed by the separator contributes that part, and the split continues on
the remainder. -/
theorem splitOnChar_append_cons (sep : Char) (l r : List Char) (hl : sep ∉ l) :
    splitOnChar sep (l ++ sep :: r) = l :: splitOnChar sep r := by
  induction l with
  | nil =>
    simp only [List.nil_append, splitOnChar]
    cases h : splitOnChar sep r with
    | nil => exact absurd h (splitOnChar_ne_nil sep r)
    | cons hd tl => simp
  | cons c l2 ih =>
    have hc : ¬(c = sep) := fun e => hl (e ▸ List.mem_cons_self c l2)
    have hl2 : sep ∉ l2 := fun m => hl (List.mem_cons_of_mem _ m)
    simp only [List.cons_append, splitOnChar, List.append_eq]
    rw [ih hl2]
    simp [hc]

/-- A string containing any non-whitespace character does not strip to the
empty string. -/
theorem pyStrip_ne_empty_of_mem (s : String) (c : Char) (hc : c ∈ s.data)
    (hp : isPySpace c = false) : pyStrip s ≠ "" := by
  intro h
  have hdata :
      (((s.data.dropWhile isPySpace).reverse.dropWhile isPySpace).reverse
        : List Char) = [] :=
    congrArg String.data h
  rw [List.reverse_eq_nil_iff] at hdata
  have hall : ∀ x ∈ (s.data.dropWhile isPySpace).reverse, isPySpace x :=
    List.dropWhile_eq_nil_iff.mp hdata
  have hall2 : ∀ x ∈ s.data.dropWhile isPySpace, isPySpace x :=
    fun x hx => hall x (List.mem_reverse.mpr hx)
  have hsplit :
      s.data.takeWhile isPySpace ++ s.data.dropWhile isPySpace = s.data :=
    List.takeWhile_append_dropWhile isPySpace s.data
  have hc2 : c ∈ s.data.takeWhile isPySpace ++ s.data.dropWhile isPySpace := by
    rw [hsplit]
    exact hc
  rcases List.mem_append.mp hc2 with h1 | h1
  · exact absurd (List.mem_takeWhile_imp h1) (by simp [hp])
  · exact absurd (hall2 c h1) (by simp [hp])

/-- Any newline-free summary line with exactly one `+`, whose left part
parses as an integer, yields exactly one flagstat_data entry: the value is
that integer and the key is the right part truncated at the first `(`,
stripped, and lowercased. -/
theorem flagstatData_two_part_line (count tail : String) (n : Int)
    (hcp : '+' ∉ count.data) (htp : '+' ∉ tail.data)
    (hcn : '\n' ∉ count.data) (htn : '\n' ∉ tail.data)
    (hint : pyInt (pyStrip count) = some n) :
    flagstatData (count ++ "+" ++ tail)
      = .ok [(pyLower (pyStrip ((pySplit tail '(').getD 0 "")), n)] := by
  have hdata : (count ++ "+" ++ tail).data = count.data ++ '+' :: tail.data := by
    have h0 : (count ++ "+" ++ tail).data = (count.data ++ ['+']) ++ tail.data := rfl
    rw [h0, List.append_assoc]
    rfl
  have hne : (count ++ "+" ++ tail).data.isEmpty = false := by
    rw [hdata]
    cases count.data with
    | nil => rfl
    | cons a l => rfl
  have hnl : '\n' ∉ (count ++ "+" ++ tail).data := by
    rw [hdata]
    intro hm
    rcases List.mem_append.mp hm with h1 | h1
    · exact hcn h1
    · rcases List.mem_cons.mp h1 with h2 | h2
      · exact absurd h2 (by decide)
      · exact htn h2
  have hplus : '+' ∈ (count ++ "+" ++ tail).data := by
    rw [hdata]
    exact List.mem_append.mpr (Or.inr (List.mem_cons_self _ _))
  have hblank : pyStrip (count ++ "+" ++ tail) ≠ "" :=
    pyStrip_ne_empty_of_mem _ '+' hplus rfl
  have hlines : pySplitlines (count ++ "+" ++ tail) = [count ++ "+" ++ tail] := by
    unfold pySplitlines pySplit
    rw [hne, splitOnChar_of_not_mem '\n' _ hnl]
    rfl
  have hsplit2 : pySplit (count ++ "+" ++ tail) '+' = [count, tail] := by
    unfold pySplit
    have h1 : splitOnChar '+' ((count ++ "+" ++ tail).data)
        = count.data :: splitOnChar '+' tail.data := by
      rw [hdata]
      exact splitOnChar_append_cons '+' count.data tail.data hcp
    rw [h1, splitOnChar_of_not_mem '+' _ htp]
    rfl
  unfold flagstatData
  rw [hlines]
  simp only [flagstatLoop]
  rw [hsplit2, if_neg hblank, if_pos (by rfl : ([count, tail].length = 2))]
  simp only [List.getD_cons_zero, List.getD_cons_succ]
  rw [hint]
  rfl

/-- C1, amended: a nonblank summary line whose `+`-split does not have
exactly two parts — such as the spec's example line, whose parenthetical
contains a second `+` — is silently skipped and yields no entry; any line
made of an integer count, a single `+`, and a `+`-free tail yields exactly
one entry whose value is the count and whose key is the tail truncated at
the first `(`, stripped and lowercased — so the key retains the second
integer and folds case (it is never `<desc>` alone). -/
theorem c1_desc_to_count_amended :
    (∀ (acc : List (String × Int)) (rest : List String) (line : String),
        pyStrip line ≠ "" → (pySplit line '+').length ≠ 2 →
        flagstatLoop acc (line :: rest) = flagstatLoop acc rest)
    ∧ (∀ (count tail : String) (n : Int),
        '+' ∉ count.data → '+' ∉ tail.data →
        '\n' ∉ count.data → '\n' ∉ tail.data →
        pyInt (pyStrip count) = some n →
        flagstatData (count ++ "+" ++ tail)
          = .ok [(pyLower (pyStrip ((pySplit tail '(').getD 0 "")), n)])
    ∧ flagstatData "99 + 0 Properly Paired (98.52% : N/A)"
        = .ok [("0 properly paired", 99)]
    ∧ flagstatData "1000 + 0 in total" = .ok [("0 in total", 1000)]
    ∧ flagstatData "1000 + 0 in total (QC-passed reads + QC-failed reads)"
        = .ok [] := by
  refine ⟨?_, flagstatData_two_part_line, rfl, rfl, rfl⟩
  intro acc rest line h1 h2
  simp only [flagstatLoop]
  rw [if_neg h1, if_neg h2]

/-- C1, witness for the amended theorem's two general conjuncts: the skip
rule at the spec's example line, and the entry rule at a line whose key
exercises both the lowercasing and the `(`-truncation. -/
theorem c1_desc_to_count_amended_witness :
    (pyStrip "1000 + 0 in total (QC-passed reads + QC-failed reads)" ≠ ""
      ∧ (pySplit "1000 + 0 in total (QC-passed reads + QC-failed reads)" '+').length ≠ 2
      ∧ flagstatLoop [] ["1000 + 0 in total (QC-passed reads + QC-failed reads)"]
          = flagstatLoop [] [])
    ∧ ('+' ∉ "99 ".data ∧ '+' ∉ " 0 Properly Paired (98.52% : N/A)".data
      ∧ '\n' ∉ "99 ".data ∧ '\n' ∉ " 0 Properly Paired (98.52% : N/A)".data
      ∧ pyInt (pyStrip "99 ") = some 99
      ∧ flagstatData ("99 " ++ "+" ++ " 0 Properly Paired (98.52% : N/A)")
          = .ok [(pyLower (pyStrip
              ((pySplit " 0 Properly Paired (98.52% : N/A)" '(').getD 0 "")), 99)]) :=
  ⟨⟨by decide, by decide,
    c1_desc_to_count_amended.1 [] []
      "1000 + 0 in total (QC-passed reads + QC-failed reads)"
      (by decide) (by decide)⟩,
   by decide, by decide, by decide, by decide, by decide,
   c1_desc_to_count_amended.2.1 "99 " " 0 Properly Paired (98.52% : N/A)" 99
     (by decide) (by decide) (by decide) (by decide) (by decide)⟩

/-- C3, counterexample: an empty per-reference report parses to no rows,
and the Chromosomes tab then raises `KeyError: 'Mapped'` while building the
Coverage column over an empty, column-less DataFrame — it does not degrade
gracefully. -/
theorem c3_empty_reference_counterexample :
    chrData "" = .ok []
    ∧ chromosomesTab [] = .error "KeyError: 'Mapped'" :=
  ⟨rfl, rfl⟩

/-- C3, amended: when the parsed reference sequence is empty the
presentation raises (`KeyError: 'Mapped'` from the Coverage column over an
empty DataFrame) instead of degrading gracefully; for every nonempty
reference sequence the tab renders without raising. -/
theorem c3_empty_reference_amended :
    ∀ rows : List ChrRow,
      (rows = [] → chromosomesTab rows = .error "KeyError: 'Mapped'")
      ∧ (rows ≠ [] → exceptOk (chromosomesTab rows) = true) := by
  intro rows
  constructor
  · rintro rfl
    rfl
  · intro h
    have he : rows.isEmpty = false := by
      cases rows with
      | nil => exact absurd rfl h
      | cons a l => rfl
    unfold chromosomesTab
    rw [he]
    rfl

/-- C3, witness for the amended theorem at a one-row reference set. -/
theorem c3_empty_reference_amended_witness :
    (([⟨"chr1", 248956422, 500000, 1200⟩] : List ChrRow) = [] →
      chromosomesTab [⟨"chr1", 248956422, 500000, 1200⟩] = .error "KeyError: 'Mapped'")
    ∧ (([⟨"chr1", 248956422, 500000, 1200⟩] : List ChrRow) ≠ [] →
      exceptOk (chromosomesTab [⟨"chr1", 248956422, 500000, 1200⟩]) = true) :=
  c3_empty_reference_amended [⟨"chr1", 248956422, 500000, 1200⟩]

/-- C6, counterexample: when `samtools index` exits nonzero with a
diagnostic on stderr, the pipeline aborts with a `CalledProcessError`-style
`ToolExecutionError` whose captured stderr is `None` — the diagnostic
output is not carried in the error, because `check=True` was used without
`capture_output`. -/
theorem c6_index_failure_counterexample :
    runPipeline "sample.bam"
        ⟨1, "", "samtools index: failed to create index for sample.bam"⟩
        ⟨0, "", ""⟩ ⟨0, "", ""⟩
      = .error ⟨["samtools", "index", "sample.bam"], 1, none, none⟩
    ∧ (⟨["samtools", "index", "sample.bam"], 1, none, none⟩ :
        ToolExecutionError).capturedStderr
      ≠ some "samtools index: failed to create index for sample.bam" :=
  ⟨rfl, by decide⟩

/-- C6, amended: if index creation exits nonzero, the whole request aborts
with a `ToolExecutionError` (Python's `CalledProcessError`) carrying the
command and exit status but no captured diagnostic output, and no report is
produced from the un-indexed file. -/
theorem c6_index_failure_amended :
    ∀ (bamPath : String) (index flagstat idxstats : ProcResult),
      index.exitCode ≠ 0 →
      runPipeline bamPath index flagstat idxstats
        = .error ⟨["samtools", "index", bamPath], index.exitCode, none, none⟩ := by
  intro p i f x h
  unfold runPipeline
  rw [if_pos h]

/-- C6, witness for the amended theorem at a concrete failing index run. -/
theorem c6_index_failure_amended_witness :
    ((⟨1, "", "boom"⟩ : ProcResult).exitCode ≠ 0)
    ∧ runPipeline "sample.bam" ⟨1, "", "boom"⟩ ⟨0, "flag", ""⟩ ⟨0, "idx", ""⟩
        = .error ⟨["samtools", "index", "sample.bam"], 1, none, none⟩ :=
  ⟨by decide, c6_index_failure_amended "sample.bam" ⟨1, "", "boom"⟩ ⟨0, "flag", ""⟩
    ⟨0, "idx", ""⟩ (by decide)⟩

/-- C7: an empty summary report yields an empty mapping without raising,
the Statistics tab's metric list and columns are empty, and the pie subtab
degrades to its warning (empty-state) view. -/
theorem c7_empty_summary_report :
    flagstatData "" = .ok []
    ∧ metricsList "" = []
    ∧ statisticsColumns "" = ([], [])
    ∧ pieView (flagstatEntries "") = .warning :=
  ⟨rfl, rfl, rfl, rfl⟩

/-- C9: composition-category assignment is deterministic (and hence
idempotent as a grouping): two runs of the pie mapper on the same
AlignmentSummary produce identical category groupings. -/
theorem c9_category_assignment_deterministic :
    ∀ s t : List (String × Int), s = t → pieData s = pieData t := by
  intro s t h
  rw [h]

/-- C9, witness at a concrete AlignmentSummary. -/
theorem c9_category_assignment_deterministic_witness :
    ([("0 mapped", (3 : Int)), ("0 in total", 10)]
        = [("0 mapped", (3 : Int)), ("0 in total", 10)])
    ∧ pieData [("0 mapped", (3 : Int)), ("0 in total", 10)]
        = pieData [("0 mapped", (3 : Int)), ("0 in total", 10)] :=
  ⟨rfl, c9_category_assignment_deterministic _ _ rfl⟩

/-- A summary-report line on which the flagstat_data loop raises: nonblank,
exactly two `+`-parts, and a count that `int` rejects. -/
def flagstatBadLine (line : String) : Prop :=
  pyStrip line ≠ "" ∧ (pySplit line '+').length = 2
    ∧ pyInt (pyStrip ((pySplit line '+').getD 0 "")) = none

instance (line : String) : Decidable (flagstatBadLine line) := by
  unfold flagstatBadLine
  infer_instance

/-- A per-reference line on which the chr_data loop raises: nonblank, at
least three tab-parts, and some consumed numeric field that `int`
rejects. -/
def chrBadLine (line : String) : Prop :=
  pyStrip line ≠ "" ∧ 3 ≤ (pySplit line '\t').length
    ∧ (pyInt ((pySplit line '\t').getD 1 "") = none
       ∨ pyInt ((pySplit line '\t').getD 2 "") = none
       ∨ (3 < (pySplit line '\t').length
          ∧ pyInt ((pySplit line '\t').getD 3 "") = none))

instance (line : String) : Decidable (chrBadLine line) := by
  unfold chrBadLine
  infer_instance

/-- If any line of the summary report is numeric-malformed, the
flagstat_data loop raises, whatever was accumulated before it. -/
theorem flagstatLoop_error_of_bad (ls : List String) :
    ∀ acc, (∃ l ∈ ls, flagstatBadLine l) →
      exceptOk (flagstatLoop acc ls) = false := by
  induction ls with
  | nil =>
    intro acc h
    obtain ⟨l, hl, _⟩ := h
    cases hl
  | cons line rest ih =>
    intro acc h
    obtain ⟨l, hl, hbad⟩ := h
    simp only [flagstatLoop]
    rcases List.mem_cons.mp hl with rfl | hmem
    · obtain ⟨h1, h2, h3⟩ := hbad
      rw [if_neg h1, if_pos h2, h3]
      rfl
    · by_cases h1 : pyStrip line = ""
      · rw [if_pos h1]
        exact ih _ ⟨l, hmem, hbad⟩
      · rw [if_neg h1]
        by_cases h2 : (pySplit line '+').length = 2
        · rw [if_pos h2]
          split
          · rfl
          · exact ih _ ⟨l, hmem, hbad⟩
        · rw [if_neg h2]
          exact ih _ ⟨l, hmem, hbad⟩

/-- If any line of the per-reference report is numeric-malformed, the
chr_data loop raises, whatever was accumulated before it. -/
theorem chrLoop_error_of_bad (ls : List String) :
    ∀ acc, (∃ l ∈ ls, chrBadLine l) →
      exceptOk (chrLoop acc ls) = false := by
  induction ls with
  | nil =>
    intro acc h
    obtain ⟨l, hl, _⟩ := h
    cases hl
  | cons line rest ih =>
    intro acc h
    obtain ⟨l, hl, hbad⟩ := h
    simp only [chrLoop]
    rcases List.mem_cons.mp hl with rfl | hmem
    · obtain ⟨h1, h2, h3⟩ := hbad
      rw [if_neg h1, if_pos h2]
      split
      · rfl
      · next len hp1 =>
        split
        · rfl
        · next mapped hp2 =>
          rcases h3 with h3 | h3 | ⟨hlen, h3⟩
          · rw [hp1] at h3
            cases h3
          · rw [hp2] at h3
            cases h3
          · rw [if_pos hlen]
            split
            · rfl
            · next unm hp3 =>
              rw [h3] at hp3
              cases hp3
    · by_cases h1 : pyStrip line = ""
      · rw [if_pos h1]
        exact ih _ ⟨l, hmem, hbad⟩
      · rw [if_neg h1]
        by_cases h2 : 3 ≤ (pySplit line '\t').length
        · rw [if_pos h2]
          split
          · rfl
          · split
            · rfl
            · split
              · split
                · rfl
                · exact ih _ ⟨l, hmem, hbad⟩
              · exact ih _ ⟨l, hmem, hbad⟩
        · rw [if_neg h2]
          exact ih _ ⟨l, hmem, hbad⟩

/-- C2: a report line whose numeric field `int` rejects makes the parse of
that report raise `MalformedReportError` (Python's `ValueError`) instead of
silently defaulting — for the flagstat_data loop and the chr_data loop
alike; concretely, `"abc + 0 total"` and a per-reference line with mapped
count `"abc"` both abort with the error naming the offending literal. -/
theorem c2_malformed_numeric_aborts :
    (∀ text : String, (∃ l ∈ pySplitlines text, flagstatBadLine l) →
        exceptOk (flagstatData text) = false)
    ∧ (∀ text : String, (∃ l ∈ pySplitlines text, chrBadLine l) →
        exceptOk (chrData text) = false)
    ∧ flagstatData "abc + 0 total" = .error (intValueError "abc")
    ∧ chrData "chr1\t100\tabc" = .error (intValueError "abc") :=
  ⟨fun _ h => flagstatLoop_error_of_bad _ [] h,
   fun _ h => chrLoop_error_of_bad _ [] h,
   rfl, rfl⟩

/-- C2, witness: the two quantified conjuncts applied to the concrete
malformed reports. -/
theorem c2_malformed_numeric_aborts_witness :
    (∃ l ∈ pySplitlines "abc + 0 total", flagstatBadLine l)
    ∧ exceptOk (flagstatData "abc + 0 total") = false
    ∧ (∃ l ∈ pySplitlines "chr1\t100\tabc", chrBadLine l)
    ∧ exceptOk (chrData "chr1\t100\tabc") = false :=
  ⟨by decide, c2_malformed_numeric_aborts.1 "abc + 0 total" (by decide),
   by decide, c2_malformed_numeric_aborts.2.1 "chr1\t100\tabc" (by decide)⟩

/-- The chr_data loop only appends: whatever it was seeded with is an
initial segment of a successful result, so rows come out in report
order. -/
theorem chrLoop_ok_extends (ls : List String) :
    ∀ (acc rows : List ChrRow), chrLoop acc ls = .ok rows →
      ∃ t, rows = acc ++ t := by
  induction ls with
  | nil =>
    intro acc rows h
    injection h with h
    exact ⟨[], by rw [← h, List.append_nil]⟩
  | cons line rest ih =>
    intro acc rows h
    simp only [chrLoop] at h
    by_cases h1 : pyStrip line = ""
    · rw [if_pos h1] at h
      exact ih _ _ h
    · rw [if_neg h1] at h
      by_cases h2 : 3 ≤ (pySplit line '\t').length
      · rw [if_pos h2] at h
        split at h
        · cases h
        · split at h
          · cases h
          · split at h
            · split at h
              · cases h
              · obtain ⟨t, ht⟩ := ih _ _ h
                exact ⟨_ :: t, by rw [ht, List.append_assoc]; rfl⟩
            · obtain ⟨t, ht⟩ := ih _ _ h
              exact ⟨_ :: t, by rw [ht, List.append_assoc]; rfl⟩
      · rw [if_neg h2] at h
        exact ih _ _ h

/-- C4: per-reference parsing — a nonblank line with fewer than three
tab-separated fields is skipped; the 3-field line `"chrM\t16569\t300"`
yields a record with `Unmapped = 0`; the 4-field line
`"chr1\t248956422\t500000\t1200"` yields exactly the record
`{chr1, 248956422, 500000, 1200}` with coverage `500000/248956422`; and
records appear in report order (each successful parse extends the already
accumulated rows in order, and a concrete two-line report parses to its
rows in report order). -/
theorem c4_reference_line_parsing :
    (∀ (acc : List ChrRow) (rest : List String) (line : String),
        pyStrip line ≠ "" → (pySplit line '\t').length < 3 →
        chrLoop acc (line :: rest) = chrLoop acc rest)
    ∧ chrData "chrM\t16569\t300" = .ok [⟨"chrM", 16569, 300, 0⟩]
    ∧ chrData "chr1\t248956422\t500000\t1200"
        = .ok [⟨"chr1", 248956422, 500000, 1200⟩]
    ∧ coverageOf ⟨"chr1", 248956422, 500000, 1200⟩ = 500000 / 248956422
    ∧ chrData "chr2\t10\t7\nchr1\t20\t9"
        = .ok [⟨"chr2", 10, 7, 0⟩, ⟨"chr1", 20, 9, 0⟩]
    ∧ (∀ (acc rows : List ChrRow) (ls : List String),
        chrLoop acc ls = .ok rows → ∃ t, rows = acc ++ t) := by
  refine ⟨?_, rfl, rfl, ?_, rfl, fun acc rows ls h => chrLoop_ok_extends ls acc rows h⟩
  · intro acc rest line h1 h2
    simp only [chrLoop]
    rw [if_neg h1, if_neg (by omega : ¬ 3 ≤ (pySplit line '\t').length)]
  · norm_num [coverageOf]

/-- C4, witness: the skip conjunct at a concrete 2-field line and the
order conjunct at a concrete successful parse. -/
theorem c4_reference_line_parsing_witness :
    pyStrip "chrM\t16569" ≠ ""
    ∧ (pySplit "chrM\t16569" '\t').length < 3
    ∧ chrLoop [] ["chrM\t16569"] = chrLoop [] []
    ∧ chrLoop [] ["chr2\t10\t7"] = .ok [⟨"chr2", 10, 7, 0⟩]
    ∧ (∃ t, ([⟨"chr2", 10, 7, 0⟩] : List ChrRow) = [] ++ t) :=
  ⟨by decide, by decide,
   c4_reference_line_parsing.1 [] [] "chrM\t16569" (by decide) (by decide),
   rfl,
   c4_reference_line_parsing.2.2.2.2.2 [] [⟨"chr2", 10, 7, 0⟩] ["chr2\t10\t7"] rfl⟩

/-- C5: the derived coverage is a total computation on every parsed row —
a zero-length row gets coverage 0 (the embedding's stand-in for the
non-raising `inf`/`NaN` pandas produces) and building the tab over any
nonempty row set raises nothing, zero lengths included. -/
theorem c5_coverage_never_faults :
    (∀ r : ChrRow, r.Length = 0 → coverageOf r = 0)
    ∧ (∀ rows : List ChrRow, rows ≠ [] →
        exceptOk (chromosomesTab rows) = true) := by
  constructor
  · intro r h
    simp [coverageOf, h]
  · intro rows h
    have he : rows.isEmpty = false := by
      cases rows with
      | nil => exact absurd rfl h
      | cons a l => rfl
    unfold chromosomesTab
    rw [he]
    rfl

/-- C5, witness: a zero-length row inside a nonempty row set. -/
theorem c5_coverage_never_faults_witness :
    ((⟨"chrU", 0, 5, 0⟩ : ChrRow).Length = 0)
    ∧ coverageOf ⟨"chrU", 0, 5, 0⟩ = 0
    ∧ (([⟨"chrU", 0, 5, 0⟩] : List ChrRow) ≠ [])
    ∧ exceptOk (chromosomesTab [⟨"chrU", 0, 5, 0⟩]) = true :=
  ⟨rfl, c5_coverage_never_faults.1 ⟨"chrU", 0, 5, 0⟩ rfl,
   by decide, c5_coverage_never_faults.2 [⟨"chrU", 0, 5, 0⟩] (by decide)⟩

/-- C8: over any reference set with at least five rows, the top-5-by-mapped
selection has exactly five rows, is sorted descending by mapped count, and
draws only members of the parsed set; the full sorted view is sorted
descending and is a permutation of the parsed rows (both views are pure
functions of the row list, which they leave intact). -/
theorem c8_top5_selection :
    ∀ rows : List ChrRow, 5 ≤ rows.length →
      (nlargestByMapped 5 rows).length = 5
      ∧ List.Sorted mappedGE (nlargestByMapped 5 rows)
      ∧ (∀ r ∈ nlargestByMapped 5 rows, r ∈ rows)
      ∧ List.Sorted mappedGE (sortByMappedDesc rows)
      ∧ (sortByMappedDesc rows).Perm rows := by
  intro rows h5
  have hperm : (sortByMappedDesc rows).Perm rows :=
    List.perm_insertionSort mappedGE rows
  have hsorted : List.Sorted mappedGE (sortByMappedDesc rows) :=
    List.sorted_insertionSort mappedGE rows
  refine ⟨?_, ?_, ?_, hsorted, hperm⟩
  · rw [nlargestByMapped, List.length_take, hperm.length_eq]
    omega
  · exact List.Pairwise.sublist (List.take_sublist 5 _) hsorted
  · intro r hr
    exact hperm.subset (List.take_subset 5 _ hr)

/-- C8, witness at a concrete five-row reference set. -/
theorem c8_top5_selection_witness :
    5 ≤ ([⟨"a", 1, 5, 0⟩, ⟨"b", 1, 9, 0⟩, ⟨"c", 1, 1, 0⟩, ⟨"d", 1, 7, 0⟩,
          ⟨"e", 1, 3, 0⟩] : List ChrRow).length
    ∧ ((nlargestByMapped 5 [⟨"a", 1, 5, 0⟩, ⟨"b", 1, 9, 0⟩, ⟨"c", 1, 1, 0⟩,
          ⟨"d", 1, 7, 0⟩, ⟨"e", 1, 3, 0⟩]).length = 5
      ∧ List.Sorted mappedGE (nlargestByMapped 5 [⟨"a", 1, 5, 0⟩, ⟨"b", 1, 9, 0⟩,
          ⟨"c", 1, 1, 0⟩, ⟨"d", 1, 7, 0⟩, ⟨"e", 1, 3, 0⟩])
      ∧ (∀ r ∈ nlargestByMapped 5 [⟨"a", 1, 5, 0⟩, ⟨"b", 1, 9, 0⟩, ⟨"c", 1, 1, 0⟩,
            ⟨"d", 1, 7, 0⟩, ⟨"e", 1, 3, 0⟩],
          r ∈ ([⟨"a", 1, 5, 0⟩, ⟨"b", 1, 9, 0⟩, ⟨"c", 1, 1, 0⟩, ⟨"d", 1, 7, 0⟩,
            ⟨"e", 1, 3, 0⟩] : List ChrRow))
      ∧ List.Sorted mappedGE (sortByMappedDesc [⟨"a", 1, 5, 0⟩, ⟨"b", 1, 9, 0⟩,
          ⟨"c", 1, 1, 0⟩, ⟨"d", 1, 7, 0⟩, ⟨"e", 1, 3, 0⟩])
      ∧ (sortByMappedDesc [⟨"a", 1, 5, 0⟩, ⟨"b", 1, 9, 0⟩, ⟨"c", 1, 1, 0⟩,
          ⟨"d", 1, 7, 0⟩, ⟨"e", 1, 3, 0⟩]).Perm
          [⟨"a", 1, 5, 0⟩, ⟨"b", 1, 9, 0⟩, ⟨"c", 1, 1, 0⟩, ⟨"d", 1, 7, 0⟩,
           ⟨"e", 1, 3, 0⟩]) :=
  ⟨by decide,
   c8_top5_selection
     [⟨"a", 1, 5, 0⟩, ⟨"b", 1, 9, 0⟩, ⟨"c", 1, 1, 0⟩, ⟨"d", 1, 7, 0⟩,
      ⟨"e", 1, 3, 0⟩] (by decide)⟩

/-- Whatever the first-match scan returns was produced by a table entry
whose pattern the key actually contains. -/
theorem firstLabel_result_matched (tbl : List (String × String)) (k lab : String) :
    firstLabel tbl k = some lab → ∃ p, (p, lab) ∈ tbl ∧ pyIn p k := by
  induction tbl with
  | nil =>
    intro h
    cases h
  | cons hd tl ih =>
    obtain ⟨p0, l0⟩ := hd
    intro h
    simp only [firstLabel] at h
    by_cases hp : pyIn p0 k
    · rw [if_pos hp] at h
      injection h with h
      exact ⟨p0, by simp [h], hp⟩
    · rw [if_neg hp] at h
      obtain ⟨p, hmem, hin⟩ := ih h
      exact ⟨p, List.mem_cons_of_mem _ hmem, hin⟩

/-- The first-match scan never reads past an entry whose pattern the key
contains: its result label comes from that entry or an earlier one. -/
theorem firstLabel_stops_at (k pat lab : String) (h : pyIn pat k)
    (tbl1 : List (String × String)) :
    ∀ tbl2, ∃ l, firstLabel (tbl1 ++ (pat, lab) :: tbl2) k = some l
      ∧ l ∈ (tbl1.map Prod.snd) ++ [lab] := by
  induction tbl1 with
  | nil =>
    intro tbl2
    refine ⟨lab, ?_, by simp⟩
    simp only [List.nil_append, firstLabel]
    rw [if_pos h]
  | cons hd tl ih =>
    intro tbl2
    obtain ⟨p0, l0⟩ := hd
    by_cases hp : pyIn p0 k
    · refine ⟨l0, ?_, by simp⟩
      simp only [List.cons_append, firstLabel]
      rw [if_pos hp]
    · obtain ⟨l, h1, h2⟩ := ih tbl2
      refine ⟨l, ?_, ?_⟩
      · simp only [List.cons_append, firstLabel]
        rw [if_neg hp]
        exact h1
      · simp only [List.map_cons, List.cons_append]
        exact List.mem_cons_of_mem _ h2

set_option maxHeartbeats 1000000 in
/-- Each of the three tail patterns of labels_map contains the earlier
pattern `"mapped"` as a substring, so for any key the first-match scan
stops at the `"mapped"` entry (or earlier) before it could reach them: no
key is ever assigned `Both Mates Mapped`, `Mate Different Chr` or
`Mate Diff Chr (MQ≥5)`. -/
theorem firstLabel_unreachable_categories (k lab : String)
    (hfl : firstLabel labelsMap k = some lab) :
    lab ≠ "Both Mates Mapped" ∧ lab ≠ "Mate Different Chr"
      ∧ lab ≠ "Mate Diff Chr (MQ≥5)" := by
  have hgoods : ∀ lab2, firstLabel labelsMap k = some lab2 →
      pyIn "mapped" k →
      lab2 ∈ ["Total Reads", "Secondary Alignments",
        "Supplementary Alignments", "Duplicates", "Mapped Reads"] := by
    intro lab2 hfl2 hmk
    obtain ⟨l, hl, hlin⟩ :=
      firstLabel_stops_at k "mapped" "Mapped Reads" hmk
        [("in total", "Total Reads"),
         ("secondary", "Secondary Alignments"),
         ("supplementary", "Supplementary Alignments"),
         ("duplicates", "Duplicates")]
        [("paired in sequencing", "Paired Reads"),
         ("read1", "Read 1"),
         ("read2", "Read 2"),
         ("properly paired", "Properly Paired"),
         ("with itself and mate mapped", "Both Mates Mapped"),
         ("singletons", "Singletons"),
         ("with mate mapped to a different chr", "Mate Different Chr"),
         ("with mate mapped to a different chr (mapq>=5)", "Mate Diff Chr (MQ≥5)")]
    have hl2 : firstLabel labelsMap k = some l := hl
    rw [hfl2] at hl2
    injection hl2 with hl2
    rw [hl2]
    simpa using hlin
  have hbadpat : ∀ pr ∈ labelsMap,
      (pr.2 = "Both Mates Mapped" ∨ pr.2 = "Mate Different Chr"
        ∨ pr.2 = "Mate Diff Chr (MQ≥5)") → pyIn "mapped" pr.1 := by
    decide
  refine ⟨?_, ?_, ?_⟩
  · intro hbad
    subst hbad
    obtain ⟨p, hmem, hpk⟩ := firstLabel_result_matched labelsMap k _ hfl
    have hmk : pyIn "mapped" k :=
      pyIn_trans (hbadpat _ hmem (Or.inl rfl)) hpk
    exact absurd (hgoods _ hfl hmk) (by decide)
  · intro hbad
    subst hbad
    obtain ⟨p, hmem, hpk⟩ := firstLabel_result_matched labelsMap k _ hfl
    have hmk : pyIn "mapped" k :=
      pyIn_trans (hbadpat _ hmem (Or.inr (Or.inl rfl))) hpk
    exact absurd (hgoods _ hfl hmk) (by decide)
  · intro hbad
    subst hbad
    obtain ⟨p, hmem, hpk⟩ := firstLabel_result_matched labelsMap k _ hfl
    have hmk : pyIn "mapped" k :=
      pyIn_trans (hbadpat _ hmem (Or.inr (Or.inr rfl))) hpk
    exact absurd (hgoods _ hfl hmk) (by decide)

/-- C10: for every input mapping, the composition breakdown never assigns
the categories `Both Mates Mapped`, `Mate Different Chr` or
`Mate Diff Chr (MQ≥5)`: every description containing one of those entries'
patterns also contains the earlier pattern `"mapped"`, which wins the
first-match scan (truncation at `(` additionally keeps `"(mapq>=5)"` out of
any parsed description, but the shadowing alone already settles it for
arbitrary keys). -/
theorem c10_unreachable_categories :
    ∀ (entries : List (String × Int)) (c : String × Int),
      c ∈ pieData entries →
      c.1 ≠ "Both Mates Mapped" ∧ c.1 ≠ "Mate Different Chr"
        ∧ c.1 ≠ "Mate Diff Chr (MQ≥5)" := by
  intro entries c hc
  simp only [pieData, List.mem_filterMap] at hc
  obtain ⟨kv, _, heq⟩ := hc
  cases hfl : firstLabel labelsMap kv.1 with
  | none =>
    rw [hfl] at heq
    cases heq
  | some lab =>
    rw [hfl] at heq
    injection heq with heq
    obtain ⟨h1, h2, h3⟩ := firstLabel_unreachable_categories kv.1 lab hfl
    rw [← heq]
    exact ⟨h1, h2, h3⟩

/-- C10, witness: the key `"0 with itself and mate mapped"` (which contains
the `Both Mates Mapped` pattern) is assigned `Mapped Reads`, not any of the
unreachable categories. -/
theorem c10_unreachable_categories_witness :
    ("Mapped Reads", (4 : Int)) ∈ pieData [("0 with itself and mate mapped", 4)]
    ∧ ("Mapped Reads", (4 : Int)).1 ≠ "Both Mates Mapped"
    ∧ ("Mapped Reads", (4 : Int)).1 ≠ "Mate Different Chr"
    ∧ ("Mapped Reads", (4 : Int)).1 ≠ "Mate Diff Chr (MQ≥5)" :=
  ⟨by decide,
   c10_unreachable_categories [("0 with itself and mate mapped", 4)]
     ("Mapped Reads", 4) (by decide)⟩
